import Mathlib

/-!
Verification development for apps/api/app/allergen_canonical.py.

The module is a static reference table of canonical allergens plus four
pure lookup/normalization functions.  We embed the Python code shallowly:

* Python strings are modelled as Lean Strings, with character-level
  operations performed on their List Char contents.  str.strip(),
  str.lower() and re.sub(r"\s+", " ", -) are modelled for the ASCII
  range (the table and rule keys are all ASCII); Unicode-only case
  mappings and exotic whitespace are outside the model.
* Python dicts are modelled as association lists.  An insertion prepends
  its pair, and lookup returns the first (i.e. most recently inserted)
  binding, which reproduces the dict's last-write-wins value semantics.
* Arbitrary Python values reaching the functions are modelled by the
  PyValue type (None, bool, int, str, CanonicalAllergen).  str(value) is
  total on these; attribute access .strip() on a non-str value raises
  AttributeError, modelled with an Except codomain where reachable.
-/

/-- ASCII whitespace recognised by str.strip() and regex \s
(space, tab, newline, carriage return, vertical tab, form feed). -/
def pyIsSpace (c : Char) : Bool :=
  c == ' ' || c == '\t' || c == '\n' || c == '\r' || c == '\x0b' || c == '\x0c'

/-- The ASCII upper-to-lower case table behind str.lower(). -/
def _LOWER_PAIRS : List (Char × Char) :=
  [('A', 'a'), ('B', 'b'), ('C', 'c'), ('D', 'd'), ('E', 'e'), ('F', 'f'),
   ('G', 'g'), ('H', 'h'), ('I', 'i'), ('J', 'j'), ('K', 'k'), ('L', 'l'),
   ('M', 'm'), ('N', 'n'), ('O', 'o'), ('P', 'p'), ('Q', 'q'), ('R', 'r'),
   ('S', 's'), ('T', 't'), ('U', 'u'), ('V', 'v'), ('W', 'w'), ('X', 'x'),
   ('Y', 'y'), ('Z', 'z')]

/-- str.lower() on one character (ASCII model). -/
def pyToLower (c : Char) : Char :=
  match _LOWER_PAIRS.lookup c with
  | some d => d
  | none => c

/-- str.lower() on the contents of a string. -/
def pyLowerL (l : List Char) : List Char := l.map pyToLower

/-- str.strip() on the contents of a string: drop whitespace from both ends. -/
def pyStripL (l : List Char) : List Char :=
  ((l.dropWhile pyIsSpace).reverse.dropWhile pyIsSpace).reverse

/-- Helper for collapseWs; the flag records whether we are inside a
whitespace run whose replacement space was already emitted. -/
def collapseWsAux : List Char → Bool → List Char
  | [], _ => []
  | c :: rest, inRun =>
    if pyIsSpace c then
      if inRun then collapseWsAux rest true
      else ' ' :: collapseWsAux rest true
    else c :: collapseWsAux rest false

/-- re.sub(r"\s+", " ", text): replace every maximal whitespace run by one space. -/
def collapseWs (l : List Char) : List Char := collapseWsAux l false

/-- Double every space character (used to state the claim that
canonicalize_allergen does not collapse interior whitespace). -/
def doubleSpaces : List Char → List Char
  | [] => []
  | c :: rest => if c == ' ' then c :: c :: doubleSpaces rest else c :: doubleSpaces rest

/-- Normalized allergen entry used for LLM predictions and API responses
(frozen dataclass CanonicalAllergen; tuples become lists). -/
structure CanonicalAllergen where
  slug : String
  label : String
  legacy_codes : List String
  aliases : List String
  deriving DecidableEq

def wheatEntry : CanonicalAllergen :=
  { slug := "wheat", label := "Wheat", legacy_codes := [],
    aliases := ["wheat", "gluten", "durum wheat", "semolina", "farina",
                "flour", "bread", "cereal", "cereals"] }

def barleyEntry : CanonicalAllergen :=
  { slug := "barley", label := "Barley", legacy_codes := [],
    aliases := ["barley", "malt", "hordeum"] }

def ryeEntry : CanonicalAllergen :=
  { slug := "rye", label := "Rye", legacy_codes := [],
    aliases := ["rye", "pumpernickel", "secale"] }

def oatsEntry : CanonicalAllergen :=
  { slug := "oats", label := "Oats", legacy_codes := [],
    aliases := ["oats", "oatmeal", "rolled oats"] }

def speltEntry : CanonicalAllergen :=
  { slug := "spelt", label := "Spelt", legacy_codes := [],
    aliases := ["spelt", "dinkel", "spelt flour"] }

def triticaleEntry : CanonicalAllergen :=
  { slug := "triticale", label := "Triticale", legacy_codes := [],
    aliases := ["triticale", "triticale flour"] }

def crustaceansEntry : CanonicalAllergen :=
  { slug := "crustaceans", label := "Crustaceans", legacy_codes := [],
    aliases := ["crustacean", "shrimp", "prawn", "crab", "lobster", "crayfish", "shellfish"] }

def eggsEntry : CanonicalAllergen :=
  { slug := "eggs", label := "Eggs", legacy_codes := [],
    aliases := ["egg", "eggs", "albumen", "meringue"] }

def fishEntry : CanonicalAllergen :=
  { slug := "fish", label := "Fish", legacy_codes := [],
    aliases := ["fish", "salmon", "cod", "trout", "haddock", "tuna", "bass"] }

def peanutsEntry : CanonicalAllergen :=
  { slug := "peanuts", label := "Peanuts", legacy_codes := [],
    aliases := ["peanut", "peanuts", "groundnut", "groundnuts", "satay", "arachis"] }

def soybeansEntry : CanonicalAllergen :=
  { slug := "soybeans", label := "Soybeans", legacy_codes := [],
    aliases := ["soy", "soya", "soybean", "soybeans", "edamame", "tofu", "tempeh", "lecithin"] }

def milkEntry : CanonicalAllergen :=
  { slug := "milk", label := "Milk", legacy_codes := [],
    aliases := ["milk", "dairy", "lactose", "cheese", "butter", "cream", "yogurt"] }

def treeNutsEntry : CanonicalAllergen :=
  { slug := "tree_nuts", label := "Tree nuts", legacy_codes := [],
    aliases := ["nut", "nuts", "almond", "almonds", "hazelnut", "hazelnuts",
                "walnut", "walnuts", "cashew", "cashews", "pecan", "pecans",
                "brazil nut", "brazil nuts", "pistachio", "pistachios",
                "macadamia", "macadamia nut"] }

def celeryEntry : CanonicalAllergen :=
  { slug := "celery", label := "Celery", legacy_codes := [],
    aliases := ["celery", "celeriac", "apium"] }

def mustardEntry : CanonicalAllergen :=
  { slug := "mustard", label := "Mustard", legacy_codes := [],
    aliases := ["mustard", "dijon", "wholegrain", "yellow mustard", "brown mustard"] }

def sesameEntry : CanonicalAllergen :=
  { slug := "sesame", label := "Sesame seeds", legacy_codes := [],
    aliases := ["sesame", "sesame seed", "sesame seeds", "tahini", "gomasio"] }

def sulphitesEntry : CanonicalAllergen :=
  { slug := "sulphites", label := "Sulphur dioxide & sulphites", legacy_codes := [],
    aliases := ["sulphite", "sulfite", "sulphites", "sulfites", "so2", "preservative",
                "e220", "e221", "e222", "e223", "e224", "e226", "e227", "e228"] }

def lupinEntry : CanonicalAllergen :=
  { slug := "lupin", label := "Lupin", legacy_codes := [],
    aliases := ["lupin", "lupine", "lupini", "lupin flour"] }

def molluscsEntry : CanonicalAllergen :=
  { slug := "molluscs", label := "Molluscs", legacy_codes := [],
    aliases := ["mollusc", "molluscs", "mussel", "mussels", "oyster", "oysters",
                "clam", "octopus", "squid", "scallop", "snail"] }

def meatEntry : CanonicalAllergen :=
  { slug := "meat", label := "Meat or animal derivative", legacy_codes := [],
    aliases := ["meat", "beef", "pork", "chicken", "lamb", "steak", "bacon", "ham",
                "sausage", "gelatin", "gelatine", "lard", "animal fat", "animal derivative"] }

def honeyEntry : CanonicalAllergen :=
  { slug := "honey", label := "Honey", legacy_codes := [],
    aliases := ["honey", "bee honey", "raw honey"] }

/-- _CANONICAL_DATA: the canonical table, in declaration order. -/
def _CANONICAL_DATA : List CanonicalAllergen :=
  [wheatEntry, barleyEntry, ryeEntry, oatsEntry, speltEntry, triticaleEntry,
   crustaceansEntry, eggsEntry, fishEntry, peanutsEntry, soybeansEntry, milkEntry,
   treeNutsEntry, celeryEntry, mustardEntry, sesameEntry, sulphitesEntry,
   lupinEntry, molluscsEntry, meatEntry, honeyEntry]

/-- Python dict value lookup on an association list whose most recent
insertion comes first: dict.get returns the most recently written value. -/
def dictGet {β : Type} (k : List Char) : List (List Char × β) → Option β
  | [] => none
  | (k', v) :: rest => if k = k' then some v else dictGet k rest

/-- One dict insertion (last-write-wins): prepend, so lookup sees it first. -/
def dictInsert {β : Type} (d : List (List Char × β)) (k : List Char) (v : β) :
    List (List Char × β) :=
  (k, v) :: d

/-- The loop body building _ALIAS_LOOKUP for one entry: insert the
lower-cased label first, then each lower-cased alias in order. -/
def insertEntry (d : List (List Char × CanonicalAllergen)) (e : CanonicalAllergen) :
    List (List Char × CanonicalAllergen) :=
  e.aliases.foldl (fun d' a => dictInsert d' (pyLowerL a.data) e)
    (dictInsert d (pyLowerL e.label.data) e)

/-- _ALIAS_LOOKUP: combined label/alias index, built in declaration order. -/
def _ALIAS_LOOKUP : List (List Char × CanonicalAllergen) :=
  _CANONICAL_DATA.foldl insertEntry []

/-- _CANONICAL_BY_LABEL: index from lower-cased label to entry. -/
def _CANONICAL_BY_LABEL : List (List Char × CanonicalAllergen) :=
  _CANONICAL_DATA.foldl (fun d e => dictInsert d (pyLowerL e.label.data) e) []

/-- The lower-cased keys contributed to _ALIAS_LOOKUP by one entry
(label first, then aliases). -/
def entryKeysLC (e : CanonicalAllergen) : List (List Char) :=
  pyLowerL e.label.data :: e.aliases.map (fun a => pyLowerL a.data)

/-- _CERTAINTY_NORMALIZATION_RULES, in declared key order (dict insertion
order, which Python preserves for both lookup iteration and .items()). -/
def _CERTAINTY_NORMALIZATION_RULES : List (String × String) :=
  [("certain", "certain"), ("definite", "certain"), ("explicit", "certain"),
   ("sure", "certain"), ("confirmed", "certain"), ("direct", "certain"),
   ("likely", "likely"), ("probable", "likely"), ("suggested", "likely"),
   ("estimated", "likely"), ("assumed", "likely"), ("inferred", "likely"),
   ("high", "likely"), ("very high", "likely"), ("high confidence", "likely"),
   ("most likely", "likely"), ("strong", "likely"), ("medium", "likely"),
   ("moderate", "likely"), ("medium confidence", "likely"), ("possible", "likely"),
   ("potential", "likely"), ("maybe", "likely"), ("uncertain", "likely"),
   ("low", "likely"), ("low confidence", "likely"), ("speculative", "likely"),
   ("predicted", "likely"),
   ("unknown", "likely"), ("n/a", "likely"), ("na", "likely"),
   ("unspecified", "likely")]

/-- _UI_CERTAINTY_MAP: direct pass-through for the three allowed values. -/
def _UI_CERTAINTY_MAP : List (String × String) :=
  [("likely", "likely"), ("certain", "certain"), ("confirmed", "confirmed")]

/-- Exact dict lookup in a String-keyed rule table, by text contents
(keys are distinct, so first match equals the dict's stored value). -/
def rulesGet (t : List Char) : List (String × String) → Option String
  | [] => none
  | (k, v) :: rest => if k.data = t then some v else rulesGet t rest

/-- str.startswith on character lists (recursion on the key, so that an
exhausted key reduces to true even when the text is symbolic). -/
def startswith : List Char → List Char → Bool
  | [], _ => true
  | k :: ks, t =>
    match t with
    | [] => false
    | c :: cs => k == c && startswith ks cs

/-- The prefix-scan fallback: first rule key, in declared order, that is a
string-prefix of the text (str.startswith). -/
def prefixScan (t : List Char) : List (String × String) → Option String
  | [] => none
  | (k, v) :: rest => if startswith k.data t then some v else prefixScan t rest

/-- The body of normalize_certainty after the None check, as a function of
the stripped/lower-cased text. -/
def certaintyBody (t0 : List Char) : Option String :=
  if t0 = [] then none
  else
    match rulesGet (collapseWs t0) _CERTAINTY_NORMALIZATION_RULES with
    | some normalized =>
      if normalized = "" then prefixScan (collapseWs t0) _CERTAINTY_NORMALIZATION_RULES
      else some normalized
    | none => prefixScan (collapseWs t0) _CERTAINTY_NORMALIZATION_RULES

/-- The Python values our functions may receive: None, booleans, integers,
strings, and already-canonical entries. -/
inductive PyValue : Type
  | none : PyValue
  | bool : Bool → PyValue
  | int : Int → PyValue
  | str : String → PyValue
  | canonical : CanonicalAllergen → PyValue
  deriving DecidableEq

/-- The faults the embedded code can raise. -/
inductive PyErr : Type
  | attributeError : PyErr
  deriving DecidableEq

/-- Decidable equality for Except results (needed to evaluate the
fallible canonical_allergen_from_label on concrete inputs). -/
instance {ε α : Type} [DecidableEq ε] [DecidableEq α] : DecidableEq (Except ε α) := fun x y =>
  match x, y with
  | .ok a, .ok b =>
    if h : a = b then isTrue (by rw [h]) else isFalse (fun hh => by cases hh; exact h rfl)
  | .error a, .error b =>
    if h : a = b then isTrue (by rw [h]) else isFalse (fun hh => by cases hh; exact h rfl)
  | .ok _, .error _ => isFalse (fun hh => by cases hh)
  | .error _, .ok _ => isFalse (fun hh => by cases hh)

/-- Python truthiness for the modelled values (dataclass instances are truthy). -/
def pyTruthy : PyValue → Bool
  | .none => false
  | .bool b => b
  | .int n => n != 0
  | .str s => s != ""
  | .canonical _ => true

/-- repr of a string in a dataclass repr (quote escaping not modelled;
the table contains no quotes or backslashes). -/
def pyReprStr (s : String) : String := "'" ++ s ++ "'"

/-- repr of a tuple of strings, as Python prints it. -/
def pyReprTuple (l : List String) : String :=
  match l with
  | [] => "()"
  | [x] => "(" ++ pyReprStr x ++ ",)"
  | xs => "(" ++ String.intercalate ", " (xs.map pyReprStr) ++ ")"

/-- str() of a CanonicalAllergen: the frozen dataclass repr. -/
def pyReprCanonical (c : CanonicalAllergen) : String :=
  "CanonicalAllergen(slug=" ++ pyReprStr c.slug ++ ", label=" ++ pyReprStr c.label ++
    ", legacy_codes=" ++ pyReprTuple c.legacy_codes ++
    ", aliases=" ++ pyReprTuple c.aliases ++ ")"

/-- str(value): total on all modelled values. -/
def pyStr : PyValue → String
  | .none => "None"
  | .bool b => if b then "True" else "False"
  | .int n => toString n
  | .str s => s
  | .canonical c => pyReprCanonical c

/-- The normalization str(value).strip().lower() applied by
canonicalize_allergen and normalize_certainty. -/
def pyNormKey (v : PyValue) : List Char := pyLowerL (pyStripL (pyStr v).data)

/-- canonicalize_allergen: resolve a user/LLM supplied allergen into a
canonical entry.  None and empty text give none; an already-canonical
value is returned unchanged; otherwise an exact lookup of the trimmed,
lower-cased text in _ALIAS_LOOKUP. -/
def canonicalize_allergen : PyValue → Option CanonicalAllergen
  | .none => none
  | .canonical c => some c
  | v =>
    let text := pyNormKey v
    if text = [] then none else dictGet text _ALIAS_LOOKUP

/-- canonical_allergen_from_label: look up a canonical allergen by its
label.  A falsy argument short-circuits to none; otherwise the code calls
label.strip() directly (no str() conversion), which raises AttributeError
on a truthy non-str value. -/
def canonical_allergen_from_label (label : PyValue) :
    Except PyErr (Option CanonicalAllergen) :=
  if pyTruthy label = false then .ok none
  else
    match label with
    | .str s => .ok (dictGet (pyLowerL (pyStripL s.data)) _CANONICAL_BY_LABEL)
    | _ => .error .attributeError

/-- normalize_certainty: normalize free-form certainty text into the
controlled vocabulary.  None and empty trimmed text give none; whitespace
runs are collapsed; an exact rule hit is returned (if its value is truthy);
otherwise the declared-order prefix scan decides. -/
def normalize_certainty : PyValue → Option String
  | .none => none
  | v => certaintyBody (pyNormKey v)

/-- _UI_CERTAINTY_MAP.get(value): a dict with str keys, queried with an
arbitrary (hashable) value; only a str can hit. -/
def uiGet : PyValue → Option String
  | .str s => rulesGet s.data _UI_CERTAINTY_MAP
  | _ => Option.none

/-- certainty_to_ui: translate a normalized certainty value into UI
vocabulary; falsy and unmapped values default to "likely". -/
def certainty_to_ui (v : PyValue) : String :=
  if pyTruthy v = false then "likely"
  else
    match uiGet v with
    | some mapped => if mapped = "" then "likely" else mapped
    | Option.none => "likely"

/-! ### Facts about the ASCII case table -/

/-- Each case-table pair maps a non-whitespace character to a
non-whitespace character that the table itself leaves alone. -/
lemma lower_pairs_facts : ∀ p ∈ _LOWER_PAIRS,
    pyIsSpace p.1 = false ∧ pyIsSpace p.2 = false ∧ _LOWER_PAIRS.lookup p.2 = none := by
  decide

lemma mem_of_pairs_lookup {c d : Char} (h : _LOWER_PAIRS.lookup c = some d) :
    (c, d) ∈ _LOWER_PAIRS := by
  rcases List.lookup_eq_some_iff.mp h with ⟨l₁, l₂, heq, -⟩
  rw [heq]
  exact List.mem_append_right _ (List.mem_cons_self _ _)

lemma pyIsSpace_pyToLower (c : Char) : pyIsSpace (pyToLower c) = pyIsSpace c := by
  unfold pyToLower
  cases h : _LOWER_PAIRS.lookup c with
  | none => rfl
  | some d =>
    have hm := lower_pairs_facts _ (mem_of_pairs_lookup h)
    rw [hm.2.1, hm.1]

lemma pyToLower_idem (c : Char) : pyToLower (pyToLower c) = pyToLower c := by
  cases h : _LOWER_PAIRS.lookup c with
  | none => simp [pyToLower, h]
  | some d =>
    have hm := lower_pairs_facts _ (mem_of_pairs_lookup h)
    simp [pyToLower, h, hm.2.2]

lemma pyLowerL_idem (l : List Char) : pyLowerL (pyLowerL l) = pyLowerL l := by
  simp only [pyLowerL, List.map_map]
  exact List.map_congr_left fun c _ => pyToLower_idem c

/-! ### Facts about stripping -/

lemma pyStripL_eq (l : List Char) :
    pyStripL l = List.rdropWhile pyIsSpace (l.dropWhile pyIsSpace) := rfl

/-- A prefix of a dropWhile-fixed list is itself dropWhile-fixed. -/
lemma dropWhile_fix_of_prefix {p : Char → Bool} {L M : List Char}
    (hM : M.dropWhile p = M) (hpre : L <+: M) : L.dropWhile p = L := by
  cases L with
  | nil => simp
  | cons c m =>
    obtain ⟨t, ht⟩ := hpre
    cases M with
    | nil => simp at ht
    | cons c' M' =>
      have hcc : c = c' ∧ m ++ t = M' := by
        constructor
        · exact (by injection ht)
        · exact (by injection ht)
      have hp : p c' = false := by
        by_contra hx
        rw [Bool.not_eq_false] at hx
        rw [List.dropWhile_cons, if_pos hx] at hM
        have hlen := congrArg List.length hM
        have hle : (M'.dropWhile p).length ≤ M'.length := (List.dropWhile_suffix p).length_le
        simp at hlen
        omega
      rw [List.dropWhile_cons, hcc.1, hp]
      simp

lemma dropWhile_pyStripL (l : List Char) :
    (pyStripL l).dropWhile pyIsSpace = pyStripL l := by
  rw [pyStripL_eq]
  exact dropWhile_fix_of_prefix (List.dropWhile_idempotent pyIsSpace l)
    (List.rdropWhile_prefix pyIsSpace (l.dropWhile pyIsSpace))

lemma pyStripL_idem (l : List Char) : pyStripL (pyStripL l) = pyStripL l := by
  conv_lhs => rw [pyStripL_eq, dropWhile_pyStripL, pyStripL_eq]
  exact List.rdropWhile_idempotent pyIsSpace (l.dropWhile pyIsSpace)

lemma pyStripL_pyLowerL (l : List Char) :
    pyStripL (pyLowerL l) = pyLowerL (pyStripL l) := by
  have hfun : pyIsSpace ∘ pyToLower = pyIsSpace := funext pyIsSpace_pyToLower
  unfold pyStripL pyLowerL
  rw [List.dropWhile_map, hfun, ← List.map_reverse, List.dropWhile_map, hfun, ← List.map_reverse]

/-- The key actually looked up after pre-normalizing a string twice
is the key of the once-normalized string. -/
lemma pyNormKey_renorm (s : String) :
    pyNormKey (.str (String.mk (pyLowerL (pyStripL s.data)))) = pyNormKey (.str s) := by
  show pyLowerL (pyStripL (pyLowerL (pyStripL s.data))) = pyLowerL (pyStripL s.data)
  rw [pyStripL_pyLowerL, pyStripL_idem, pyLowerL_idem]

/-! ### The alias index realizes a last-write-wins search of the table -/

lemma dictGet_insertAliases (as : List String) (d : List (List Char × CanonicalAllergen))
    (e : CanonicalAllergen) (k : List Char) :
    dictGet k (as.foldl (fun d' a => dictInsert d' (pyLowerL a.data) e) d) =
      if k ∈ as.map (fun a => pyLowerL a.data) then some e else dictGet k d := by
  induction as generalizing d with
  | nil => simp
  | cons a as ih =>
    rw [List.foldl_cons, ih]
    by_cases hm : k ∈ as.map (fun a => pyLowerL a.data) <;>
      by_cases ha : k = pyLowerL a.data <;>
        simp [dictGet, dictInsert, List.mem_cons, hm, ha]

lemma dictGet_insertEntry (d : List (List Char × CanonicalAllergen))
    (e : CanonicalAllergen) (k : List Char) :
    dictGet k (insertEntry d e) = if k ∈ entryKeysLC e then some e else dictGet k d := by
  unfold insertEntry entryKeysLC
  rw [dictGet_insertAliases]
  by_cases hm : k ∈ e.aliases.map (fun a => pyLowerL a.data) <;>
    by_cases hl : k = pyLowerL e.label.data <;>
      simp [dictGet, dictInsert, List.mem_cons, hm, hl]

lemma dictGet_foldl_insertEntry (es : List CanonicalAllergen)
    (d : List (List Char × CanonicalAllergen)) (k : List Char) :
    dictGet k (es.foldl insertEntry d) =
      (es.reverse.find? fun e => decide (k ∈ entryKeysLC e)).or (dictGet k d) := by
  induction es generalizing d with
  | nil => simp
  | cons e es ih =>
    rw [List.foldl_cons, ih, List.reverse_cons, List.find?_append, Option.or_assoc]
    congr 1
    rw [dictGet_insertEntry]
    by_cases h : k ∈ entryKeysLC e <;> simp [List.find?, h]

/-- dict.get on _ALIAS_LOOKUP finds the LAST table entry declaring the key
(label or alias, lower-cased): last-write-wins over declaration order. -/
lemma aliasGet_eq_find? (k : List Char) :
    dictGet k _ALIAS_LOOKUP =
      _CANONICAL_DATA.reverse.find? fun e => decide (k ∈ entryKeysLC e) := by
  show dictGet k (_CANONICAL_DATA.foldl insertEntry []) = _
  rw [dictGet_foldl_insertEntry]
  simp [dictGet]

lemma dictGet_foldl_insertLabel (es : List CanonicalAllergen)
    (d : List (List Char × CanonicalAllergen)) (k : List Char) :
    dictGet k (es.foldl (fun d' e => dictInsert d' (pyLowerL e.label.data) e) d) =
      (es.reverse.find? fun e => decide (k = pyLowerL e.label.data)).or (dictGet k d) := by
  induction es generalizing d with
  | nil => simp
  | cons e es ih =>
    rw [List.foldl_cons, ih, List.reverse_cons, List.find?_append, Option.or_assoc]
    congr 1
    by_cases h : k = pyLowerL e.label.data <;> simp [List.find?, dictGet, dictInsert, h]

/-- dict.get on _CANONICAL_BY_LABEL finds the last table entry whose
lower-cased label is the key. -/
lemma labelGet_eq_find? (k : List Char) :
    dictGet k _CANONICAL_BY_LABEL =
      _CANONICAL_DATA.reverse.find? fun e => decide (k = pyLowerL e.label.data) := by
  show dictGet k (_CANONICAL_DATA.foldl (fun d' e => dictInsert d' (pyLowerL e.label.data) e) []) = _
  rw [dictGet_foldl_insertLabel]
  simp [dictGet]

/-! ### Unfolding equations for the public functions on strings -/

lemma canonicalize_allergen_str (s : String) :
    canonicalize_allergen (.str s) =
      (if pyNormKey (.str s) = [] then none
       else dictGet (pyNormKey (.str s)) _ALIAS_LOOKUP) := rfl

lemma pyNormKey_str (s : String) : pyNormKey (.str s) = pyLowerL (pyStripL s.data) := rfl

/-- Every declared label and alias string in the table is already
stripped and nonempty. -/
lemma table_strings_clean : ∀ e ∈ _CANONICAL_DATA,
    (pyStripL e.label.data = e.label.data ∧ e.label.data ≠ []) ∧
      ∀ a ∈ e.aliases, pyStripL a.data = a.data ∧ a.data ≠ [] := by decide

/-- C1: for every alias or label string A declared in the canonical table,
canonicalize_allergen(A) returns the entry that declared A, and on a
collision of the lower-cased key across entries the entry declared later
in the table wins: the result is exactly the last declaring entry, i.e.
the first hit of a search through the reversed table. -/
theorem c1_declared_alias_lookup (A : String)
    (h : ∃ e ∈ _CANONICAL_DATA, A = e.label ∨ A ∈ e.aliases) :
    ∃ w, (_CANONICAL_DATA.reverse.find? fun e => decide (pyLowerL A.data ∈ entryKeysLC e))
        = some w
      ∧ canonicalize_allergen (.str A) = some w := by
  obtain ⟨e, he, hA⟩ := h
  have hclean := table_strings_clean e he
  have hstrip : pyStripL A.data = A.data := by
    rcases hA with rfl | hmem
    · exact hclean.1.1
    · exact (hclean.2 A hmem).1
  have hne : A.data ≠ [] := by
    rcases hA with rfl | hmem
    · exact hclean.1.2
    · exact (hclean.2 A hmem).2
  have hkey : pyLowerL A.data ∈ entryKeysLC e := by
    rcases hA with rfl | hmem
    · exact List.mem_cons_self _ _
    · exact List.mem_cons_of_mem _ (List.mem_map_of_mem _ hmem)
  have hsome :
      (_CANONICAL_DATA.reverse.find? fun e => decide (pyLowerL A.data ∈ entryKeysLC e)).isSome := by
    rw [List.find?_isSome]
    exact ⟨e, List.mem_reverse.mpr he, by simpa using hkey⟩
  obtain ⟨w, hw⟩ := Option.isSome_iff_exists.mp hsome
  refine ⟨w, hw, ?_⟩
  rw [canonicalize_allergen_str, pyNormKey_str, hstrip]
  rw [if_neg (by simp only [pyLowerL, List.map_eq_nil_iff]; exact hne)]
  rw [aliasGet_eq_find?]
  exact hw

/-- Witness for C1 at the alias "dairy" (declared by the Milk entry). -/
theorem c1_witness :
    (∃ e ∈ _CANONICAL_DATA, "dairy" = e.label ∨ "dairy" ∈ e.aliases) ∧
      ∃ w, (_CANONICAL_DATA.reverse.find? fun e => decide (pyLowerL "dairy".data ∈ entryKeysLC e))
          = some w
        ∧ canonicalize_allergen (.str "dairy") = some w :=
  ⟨by decide, c1_declared_alias_lookup "dairy" (by decide)⟩

/-- C8: allergen lookup is exact-key-only.  If the normalized text of s is
not a declared lower-cased label/alias key of any entry, the lookup is
absent; in particular a phrase merely containing an alias does not match. -/
theorem c8_exact_key_only :
    (∀ s : String, (∀ e ∈ _CANONICAL_DATA, pyNormKey (.str s) ∉ entryKeysLC e) →
        canonicalize_allergen (.str s) = none) ∧
      canonicalize_allergen (.str "Peanut butter traces") = none := by
  constructor
  · intro s hnone
    rw [canonicalize_allergen_str]
    by_cases h0 : pyNormKey (.str s) = []
    · rw [if_pos h0]
    · rw [if_neg h0, aliasGet_eq_find?, List.find?_eq_none]
      intro e he
      simpa using hnone e (List.mem_reverse.mp he)
  · decide

/-- Witness for C8 at "Peanut butter traces". -/
theorem c8_witness :
    (∀ e ∈ _CANONICAL_DATA, pyNormKey (.str "Peanut butter traces") ∉ entryKeysLC e) ∧
      canonicalize_allergen (.str "Peanut butter traces") = none :=
  ⟨by decide, c8_exact_key_only.1 "Peanut butter traces" (by decide)⟩

/-- C7: canonicalize_allergen is insensitive to letter case and to
leading/trailing whitespace: every string resolves exactly as its trimmed
lower-cased form does; null and empty input give absent. -/
theorem c7_case_trim_insensitive :
    (∀ s : String, canonicalize_allergen (.str s) =
        canonicalize_allergen (.str (String.mk (pyLowerL (pyStripL s.data))))) ∧
      canonicalize_allergen (.str "  WHEAT ") = canonicalize_allergen (.str "wheat") ∧
      canonicalize_allergen .none = none ∧
      canonicalize_allergen (.str "") = none := by
  refine ⟨?_, by decide, rfl, rfl⟩
  intro s
  rw [canonicalize_allergen_str, canonicalize_allergen_str, pyNormKey_renorm]

/-- C9: canonicalize_allergen is the identity on canonical entries, so it
is idempotent on its own non-absent results. -/
theorem c9_identity_on_canonical :
    (∀ c : CanonicalAllergen, canonicalize_allergen (.canonical c) = some c) ∧
      ∀ (v : PyValue) (c : CanonicalAllergen), canonicalize_allergen v = some c →
        canonicalize_allergen (.canonical c) = some c :=
  ⟨fun _ => rfl, fun _ _ _ => rfl⟩

/-- Witness for C9: feeding the result of a lookup back in returns it. -/
theorem c9_witness :
    canonicalize_allergen (.str "wheat") = some wheatEntry ∧
      canonicalize_allergen (.canonical wheatEntry) = some wheatEntry :=
  ⟨by decide, c9_identity_on_canonical.2 (.str "wheat") wheatEntry (by decide)⟩

/-! ### canonical_allergen_from_label -/

lemma from_label_str (s : String) :
    canonical_allergen_from_label (.str s) =
      if s = "" then .ok none
      else .ok (dictGet (pyLowerL (pyStripL s.data)) _CANONICAL_BY_LABEL) := by
  unfold canonical_allergen_from_label
  by_cases hs : s = ""
  · subst hs; rfl
  · rw [if_neg (by simp [pyTruthy, hs]), if_neg hs]

/-- C5: canonical_allergen_from_label looks up only by lower-cased trimmed
label, never by alias: alias-only text yields absent (while
canonicalize_allergen matches it), label text yields its entry, and
empty/absent input yields absent. -/
theorem c5_label_only_lookup :
    (∀ s : String, (∀ e ∈ _CANONICAL_DATA, pyLowerL (pyStripL s.data) ≠ pyLowerL e.label.data) →
        canonical_allergen_from_label (.str s) = .ok none) ∧
      (∀ e ∈ _CANONICAL_DATA, canonical_allergen_from_label (.str e.label) = .ok (some e)) ∧
      canonical_allergen_from_label (.str "dairy") = .ok none ∧
      canonicalize_allergen (.str "dairy") = some milkEntry ∧
      canonical_allergen_from_label (.str "") = .ok none ∧
      canonical_allergen_from_label .none = .ok none := by
  refine ⟨?_, by decide, by decide, by decide, rfl, rfl⟩
  intro s h
  rw [from_label_str]
  by_cases hs : s = ""
  · rw [if_pos hs]
  · rw [if_neg hs]
    have hnone : dictGet (pyLowerL (pyStripL s.data)) _CANONICAL_BY_LABEL = none := by
      rw [labelGet_eq_find?, List.find?_eq_none]
      intro e he
      simpa using h e (List.mem_reverse.mp he)
    rw [hnone]

/-- Witness for C5 at the alias-only text "dairy". -/
theorem c5_witness :
    (∀ e ∈ _CANONICAL_DATA, pyLowerL (pyStripL "dairy".data) ≠ pyLowerL e.label.data) ∧
      canonical_allergen_from_label (.str "dairy") = .ok none :=
  ⟨by decide, c5_label_only_lookup.1 "dairy" (by decide)⟩

/-! ### Rule-table facts -/

lemma rulesGet_mem : ∀ (tbl : List (String × String)) (t : List Char) (v : String),
    rulesGet t tbl = some v → ∃ kv ∈ tbl, kv.2 = v ∧ kv.1.data = t
  | [], _, _, h => by cases h
  | (k, w) :: rest, t, v, h => by
    by_cases hk : k.data = t
    · have hv : w = v := by simpa [rulesGet, hk] using h
      exact ⟨(k, w), List.mem_cons_self _ _, hv, hk⟩
    · have h' : rulesGet t rest = some v := by simpa [rulesGet, hk] using h
      obtain ⟨kv, hm, hv, ht⟩ := rulesGet_mem rest t v h'
      exact ⟨kv, List.mem_cons_of_mem _ hm, hv, ht⟩

lemma prefixScan_mem : ∀ (tbl : List (String × String)) (t : List Char) (v : String),
    prefixScan t tbl = some v → ∃ kv ∈ tbl, kv.2 = v
  | [], _, _, h => by cases h
  | (k, w) :: rest, t, v, h => by
    by_cases hk : startswith k.data t = true
    · have hv : w = v := by simpa [prefixScan, hk] using h
      exact ⟨(k, w), List.mem_cons_self _ _, hv⟩
    · have h' : prefixScan t rest = some v := by simpa [prefixScan, hk] using h
      obtain ⟨kv, hm, hv⟩ := prefixScan_mem rest t v h'
      exact ⟨kv, List.mem_cons_of_mem _ hm, hv⟩

/-- Every certainty rule maps to "certain" or "likely". -/
lemma rules_values : ∀ kv ∈ _CERTAINTY_NORMALIZATION_RULES,
    kv.2 = "certain" ∨ kv.2 = "likely" := by decide

/-- Every UI-map value is one of the three UI values (and nonempty). -/
lemma uiMap_values : ∀ kv ∈ _UI_CERTAINTY_MAP,
    (kv.2 = "likely" ∨ kv.2 = "certain" ∨ kv.2 = "confirmed") ∧ kv.2 ≠ "" := by decide

lemma uiGet_vals {v : PyValue} {m : String} (h : uiGet v = some m) :
    (m = "likely" ∨ m = "certain" ∨ m = "confirmed") ∧ m ≠ "" := by
  cases v with
  | str s =>
    obtain ⟨kv, hmem, hval, -⟩ := rulesGet_mem _ _ _ h
    have hv := uiMap_values kv hmem
    rw [hval] at hv
    exact hv
  | none => cases h
  | bool b => cases h
  | int n => cases h
  | canonical c => cases h

/-- certainty_to_ui always lands in the three-value UI vocabulary. -/
lemma certainty_to_ui_vals (v : PyValue) :
    certainty_to_ui v = "likely" ∨ certainty_to_ui v = "certain" ∨
      certainty_to_ui v = "confirmed" := by
  unfold certainty_to_ui
  by_cases hf : pyTruthy v = false
  · rw [if_pos hf]; exact Or.inl rfl
  · rw [if_neg hf]
    cases hu : uiGet v with
    | none => exact Or.inl rfl
    | some m =>
      obtain ⟨h3, hne⟩ := uiGet_vals hu
      simpa [hne] using h3

/-- C6: certainty_to_ui never fails and always returns one of the three UI
values; None maps to "likely", the three UI values pass through, and any
other value defaults to "likely". -/
theorem c6_ui_vocabulary :
    (∀ v : PyValue, certainty_to_ui v = "likely" ∨ certainty_to_ui v = "certain" ∨
        certainty_to_ui v = "confirmed") ∧
      certainty_to_ui .none = "likely" ∧
      certainty_to_ui (.str "likely") = "likely" ∧
      certainty_to_ui (.str "certain") = "certain" ∧
      certainty_to_ui (.str "confirmed") = "confirmed" ∧
      certainty_to_ui (.str "bogus") = "likely" ∧
      (∀ s : String, s ≠ "likely" → s ≠ "certain" → s ≠ "confirmed" →
        certainty_to_ui (.str s) = "likely") := by
  refine ⟨certainty_to_ui_vals, rfl, by decide, by decide, by decide, by decide, ?_⟩
  intro s h1 h2 h3
  unfold certainty_to_ui
  by_cases hf : pyTruthy (.str s) = false
  · rw [if_pos hf]
  · rw [if_neg hf]
    have hc1 : ¬("likely".data = s.data) := fun he => h1 (String.ext he).symm
    have hc2 : ¬("certain".data = s.data) := fun he => h2 (String.ext he).symm
    have hc3 : ¬("confirmed".data = s.data) := fun he => h3 (String.ext he).symm
    have hnone : uiGet (.str s) = none := by
      show rulesGet s.data _UI_CERTAINTY_MAP = none
      simp [rulesGet, _UI_CERTAINTY_MAP, hc1, hc2, hc3]
    rw [hnone]

/-- Witness for C6 at the unmapped value "bogus". -/
theorem c6_witness :
    ("bogus" ≠ "likely" ∧ "bogus" ≠ "certain" ∧ "bogus" ≠ "confirmed") ∧
      certainty_to_ui (.str "bogus") = "likely" :=
  ⟨by decide, c6_ui_vocabulary.2.2.2.2.2.2 "bogus" (by decide) (by decide) (by decide)⟩

/-! ### normalize_certainty -/

/-- Definitional equation of normalize_certainty on canonical entries,
stated explicitly so later proofs need not unfold the dataclass repr. -/
lemma normalize_certainty_canonical (c : CanonicalAllergen) :
    normalize_certainty (.canonical c) = certaintyBody (pyNormKey (.canonical c)) := rfl

lemma certaintyBody_exact {t0 : List Char} {m : String}
    (h : rulesGet (collapseWs t0) _CERTAINTY_NORMALIZATION_RULES = some m) :
    certaintyBody t0 = some m := by
  have h0 : t0 ≠ [] := by
    intro h0
    subst h0
    have hn : rulesGet (collapseWs []) _CERTAINTY_NORMALIZATION_RULES = none := by decide
    rw [hn] at h
    cases h
  obtain ⟨kv, hmem, hv, -⟩ := rulesGet_mem _ _ _ h
  have hval := rules_values kv hmem
  rw [hv] at hval
  have hne : m ≠ "" := by rcases hval with h' | h' <;> subst h' <;> decide
  unfold certaintyBody
  rw [if_neg h0, h]
  simp [hne]

lemma certaintyBody_vals {t0 : List Char} {r : String}
    (h : certaintyBody t0 = some r) : r = "certain" ∨ r = "likely" := by
  unfold certaintyBody at h
  by_cases h0 : t0 = []
  · rw [if_pos h0] at h; cases h
  · rw [if_neg h0] at h
    cases hg : rulesGet (collapseWs t0) _CERTAINTY_NORMALIZATION_RULES with
    | none =>
      rw [hg] at h
      obtain ⟨kv, hmem, hv⟩ := prefixScan_mem _ _ _ h
      have hx := rules_values kv hmem
      rw [hv] at hx
      exact hx
    | some n =>
      rw [hg] at h
      have h' : (if n = "" then prefixScan (collapseWs t0) _CERTAINTY_NORMALIZATION_RULES
          else some n) = some r := h
      by_cases hn : n = ""
      · rw [if_pos hn] at h'
        obtain ⟨kv, hmem, hv⟩ := prefixScan_mem _ _ _ h'
        have hx := rules_values kv hmem
        rw [hv] at hx
        exact hx
      · rw [if_neg hn] at h'
        cases h'
        obtain ⟨kv, hmem, hv, -⟩ := rulesGet_mem _ _ _ hg
        have hx := rules_values kv hmem
        rw [hv] at hx
        exact hx

/-- Every non-absent result of normalize_certainty is "certain" or "likely". -/
lemma normalize_certainty_vals :
    ∀ (v : PyValue) (r : String), normalize_certainty v = some r →
      r = "certain" ∨ r = "likely" := by
  intro v r h
  cases v with
  | none => cases h
  | bool b => exact certaintyBody_vals h
  | int n => exact certaintyBody_vals h
  | str s => exact certaintyBody_vals h
  | canonical c =>
    rw [normalize_certainty_canonical] at h
    exact certaintyBody_vals h

/-- C4: normalize_certainty is absent on null and whitespace-only input;
otherwise it normalizes (text, trim, lower-case, collapse whitespace runs)
and an exact rule-table hit is returned immediately; every non-absent result
is exactly "certain" or "likely". -/
theorem c4_certainty_pipeline :
    normalize_certainty .none = none ∧
      normalize_certainty (.str "   ") = none ∧
      (∀ s : String, pyStripL s.data = [] → normalize_certainty (.str s) = none) ∧
      (∀ (v : PyValue) (m : String),
        rulesGet (collapseWs (pyNormKey v)) _CERTAINTY_NORMALIZATION_RULES = some m →
          normalize_certainty v = some m) ∧
      (∀ (v : PyValue) (r : String), normalize_certainty v = some r →
        r = "certain" ∨ r = "likely") := by
  refine ⟨rfl, by decide, ?_, ?_, normalize_certainty_vals⟩
  · intro s hstrip
    have h0 : pyNormKey (.str s) = [] := by
      rw [pyNormKey_str, hstrip]
      rfl
    show certaintyBody (pyNormKey (.str s)) = none
    unfold certaintyBody
    rw [if_pos h0]
  · intro v m h
    cases v with
    | none =>
      exfalso
      have hn : rulesGet (collapseWs (pyNormKey PyValue.none))
          _CERTAINTY_NORMALIZATION_RULES = none := by decide
      rw [hn] at h
      cases h
    | bool b => exact certaintyBody_exact h
    | int n => exact certaintyBody_exact h
    | str s => exact certaintyBody_exact h
    | canonical c =>
      rw [normalize_certainty_canonical]
      exact certaintyBody_exact h

/-- Witness for C4: "  Confirmed " hits the exact rule ("confirmed","certain"). -/
theorem c4_witness :
    rulesGet (collapseWs (pyNormKey (.str "  Confirmed ")))
        _CERTAINTY_NORMALIZATION_RULES = some "certain" ∧
      normalize_certainty (.str "  Confirmed ") = some "certain" :=
  ⟨by decide, c4_certainty_pipeline.2.2.2.1 (.str "  Confirmed ") "certain" (by decide)⟩

/-- C2: with no exact rule hit, normalize_certainty returns the value of the
FIRST rule key in declared order that prefixes the normalized text (absent
when no key does); any normalized text starting with "high" resolves to
"likely" through the "high" key, declared before "very high" and
"high confidence". -/
theorem c2_prefix_fallback (s : String)
    (hexact : rulesGet (collapseWs (pyNormKey (.str s)))
      _CERTAINTY_NORMALIZATION_RULES = none) :
    normalize_certainty (.str s) =
        prefixScan (collapseWs (pyNormKey (.str s))) _CERTAINTY_NORMALIZATION_RULES ∧
      ((∃ r, collapseWs (pyNormKey (.str s)) = 'h' :: 'i' :: 'g' :: 'h' :: r) →
        normalize_certainty (.str s) = some "likely") := by
  have hmain : normalize_certainty (.str s) =
      prefixScan (collapseWs (pyNormKey (.str s))) _CERTAINTY_NORMALIZATION_RULES := by
    show certaintyBody (pyNormKey (.str s)) = _
    unfold certaintyBody
    by_cases h0 : pyNormKey (.str s) = []
    · rw [if_pos h0, h0]
      decide
    · rw [if_neg h0, hexact]
  refine ⟨hmain, ?_⟩
  rintro ⟨r, hr⟩
  rw [hmain, hr]
  rfl

/-- Witness for C2 at "highish": no exact rule matches, and the prefix scan
resolves it to "likely" through the "high" key. -/
theorem c2_witness :
    rulesGet (collapseWs (pyNormKey (.str "highish")))
        _CERTAINTY_NORMALIZATION_RULES = none ∧
      normalize_certainty (.str "highish") = some "likely" :=
  ⟨by decide, (c2_prefix_fallback "highish" (by decide)).2 ⟨['i', 's', 'h'], by decide⟩⟩

/-! ### Totality (C3) -/

lemma canonicalize_lookup_shape (v : PyValue)
    (he : canonicalize_allergen v =
      if pyNormKey v = [] then none else dictGet (pyNormKey v) _ALIAS_LOOKUP) :
    canonicalize_allergen v = none ∨ ∃ c ∈ _CANONICAL_DATA, canonicalize_allergen v = some c := by
  rw [he]
  by_cases h0 : pyNormKey v = []
  · rw [if_pos h0]
    exact Or.inl rfl
  · rw [if_neg h0]
    cases hg : dictGet (pyNormKey v) _ALIAS_LOOKUP with
    | none => exact Or.inl rfl
    | some c =>
      right
      refine ⟨c, ?_, rfl⟩
      rw [aliasGet_eq_find?] at hg
      exact List.mem_reverse.mp (List.mem_of_find?_eq_some hg)

/-- C3, amended: canonicalize_allergen, normalize_certainty and
certainty_to_ui are total on all modelled inputs (null, booleans, numbers,
strings, canonical entries), returning a match, an absent result, or a UI
value; canonical_allergen_from_label never faults on string or falsy input,
but it raises AttributeError on a truthy non-string input because the code
calls .strip() on the value without converting it to text. -/
theorem c3_totality_amended :
    (∀ v : PyValue, canonicalize_allergen v = none ∨
        (∃ c, v = .canonical c ∧ canonicalize_allergen v = some c) ∨
        (∃ c ∈ _CANONICAL_DATA, canonicalize_allergen v = some c)) ∧
      (∀ (v : PyValue) (r : String), normalize_certainty v = some r →
        r = "certain" ∨ r = "likely") ∧
      (∀ v : PyValue, certainty_to_ui v = "likely" ∨ certainty_to_ui v = "certain" ∨
        certainty_to_ui v = "confirmed") ∧
      (∀ s : String, ∃ ro, canonical_allergen_from_label (.str s) = .ok ro) ∧
      (∀ v : PyValue, pyTruthy v = false → canonical_allergen_from_label v = .ok none) ∧
      (∀ v : PyValue, (∀ s, v ≠ .str s) → pyTruthy v = true →
        canonical_allergen_from_label v = .error .attributeError) := by
  refine ⟨?_, normalize_certainty_vals, certainty_to_ui_vals, ?_, ?_, ?_⟩
  · intro v
    cases v with
    | none => exact Or.inl rfl
    | canonical c => exact Or.inr (Or.inl ⟨c, rfl, rfl⟩)
    | bool b =>
      rcases canonicalize_lookup_shape (.bool b) rfl with h | h
      · exact Or.inl h
      · exact Or.inr (Or.inr h)
    | int n =>
      rcases canonicalize_lookup_shape (.int n) rfl with h | h
      · exact Or.inl h
      · exact Or.inr (Or.inr h)
    | str s =>
      rcases canonicalize_lookup_shape (.str s) rfl with h | h
      · exact Or.inl h
      · exact Or.inr (Or.inr h)
  · intro s
    rw [from_label_str]
    by_cases hs : s = ""
    · rw [if_pos hs]
      exact ⟨none, rfl⟩
    · rw [if_neg hs]
      exact ⟨_, rfl⟩
  · intro v hv
    unfold canonical_allergen_from_label
    rw [if_pos hv]
  · intro v hns hv
    cases v with
    | none => simp [pyTruthy] at hv
    | str s => exact absurd rfl (hns s)
    | bool b =>
      unfold canonical_allergen_from_label
      rw [if_neg (by simp [hv])]
    | int n =>
      unfold canonical_allergen_from_label
      rw [if_neg (by simp [hv])]
    | canonical c =>
      unfold canonical_allergen_from_label
      rw [if_neg (by simp [hv])]

/-- Counterexample to C3 as stated: on the truthy non-text input 5,
canonical_allergen_from_label raises AttributeError instead of returning. -/
theorem c3_counterexample :
    canonical_allergen_from_label (.int 5) = .error .attributeError := rfl

/-- Witness for C3 (amended) at the falsy non-text input 0. -/
theorem c3_witness :
    pyTruthy (.int 0) = false ∧ canonical_allergen_from_label (.int 0) = .ok none :=
  ⟨by decide, c3_totality_amended.2.2.2.2.1 (.int 0) (by decide)⟩

/-- C10: canonicalize_allergen does not collapse interior whitespace runs
(unlike normalize_certainty): doubling the spaces inside any declared
multi-word alias makes the lookup absent, while normalize_certainty still
matches "very  high" after collapsing. -/
theorem c10_no_interior_collapse :
    (∀ e ∈ _CANONICAL_DATA, ∀ a ∈ e.aliases, (' ' ∈ a.data) →
        canonicalize_allergen (.str (String.mk (doubleSpaces a.data))) = none) ∧
      normalize_certainty (.str "very  high") = some "likely" :=
  ⟨by decide, by decide⟩

/-- Witness for C10 at the alias "rolled oats" of the Oats entry. -/
theorem c10_witness :
    (oatsEntry ∈ _CANONICAL_DATA ∧ "rolled oats" ∈ oatsEntry.aliases ∧
        ' ' ∈ "rolled oats".data) ∧
      canonicalize_allergen (.str (String.mk (doubleSpaces "rolled oats".data))) = none :=
  ⟨by decide,
    c10_no_interior_collapse.1 oatsEntry (by decide) "rolled oats" (by decide) (by decide)⟩
